import Mathlib

/-!
Verification of the respx pattern-matching core, a shallow embedding of
src/respx/patterns.py.

Modelling conventions:
* All string manipulation is done on the underlying character lists
  (String.data), with small structural helpers, so every definition reduces
  by kernel computation.
* httpx collections are modelled by their observable contents: a Headers or
  QueryParams value by its ordered multi_items list of (key, value) pairs
  (httpx lowercases header keys), a cookie set by a Finset of pairs.
* A compiled regular expression is modelled as an abstract search function
  String to Option of a named-group context, exactly the interface
  Pattern._regex consumes (search anywhere, groupdict on success).
* Python exceptions that the matching code can raise (KeyError, IndexError,
  TypeError from JSON path navigation, a JSON decode error) are modelled
  with Except.
* The URL, Content and Data leaf kinds delegate their parsing to external
  httpx machinery (whole-URL canonical strings, request body encoding) and
  are not exercised by any claim, so the embedded leaf vocabulary covers
  method, headers, cookies, scheme, host, port, path, params and json.
-/

namespace Respx

/-! ## Characterwise string helpers -/

def ofChars (cs : List Char) : String := ⟨cs⟩

def strLen (s : String) : Nat := s.data.length

def strDrop (s : String) (n : Nat) : String := ⟨s.data.drop n⟩

/-- Python str.startswith: the candidate head is a prefix of the value. -/
def startsWithS (v p : String) : Bool := p.data.isPrefixOf v.data

/-- Python str.lower (ASCII, as used for header keys and schemes). -/
def lowerS (s : String) : String := ⟨s.data.map Char.toLower⟩

/-- Python str.upper (ASCII, as used for HTTP methods). -/
def upperS (s : String) : String := ⟨s.data.map Char.toUpper⟩

/-- Split a character list at every non-overlapping occurrence of the
double-underscore separator, scanning left to right (Python str.split with
separator given twice an underscore). -/
def splitUUGo (acc : List Char) : List Char → List (List Char)
  | '_' :: '_' :: rest => acc.reverse :: splitUUGo [] rest
  | c :: rest => splitUUGo (c :: acc) rest
  | [] => [acc.reverse]

def joinChars (sep : List Char) : List (List Char) → List Char
  | [] => []
  | [x] => x
  | x :: xs => x ++ sep ++ joinChars sep xs

/-- Python str.partition on the double underscore: (piece before the first
separator, rest). When the separator is absent the whole string is the
first component. -/
def partitionUU (s : String) : String × String :=
  match splitUUGo [] s.data with
  | [] => (s, "")
  | [x] => (⟨x⟩, "")
  | x :: rest => (⟨x⟩, ⟨joinChars [ '_', '_'] rest⟩)

/-- Python str.rpartition on the double underscore: (piece before the last
separator, piece after it). When the separator is absent the whole string
is the last component. -/
def rpartitionUU (s : String) : String × String :=
  match (splitUUGo [] s.data).reverse with
  | [] => ("", s)
  | [_] => ("", s)
  | last :: revInit => (⟨joinChars [ '_', '_'] revInit.reverse⟩, ⟨last⟩)

def natOfDigits (cs : List Char) : Nat :=
  cs.foldl (fun a c => a * 10 + (c.toNat - 48)) 0

/-- Python str.isdigit for ASCII digits: nonempty and all digits. -/
def isDigits (cs : List Char) : Bool := !cs.isEmpty && cs.all Char.isDigit

/-! ## Lookup vocabulary and match results (patterns.py: Lookup, Match) -/

inductive Lookup
  | EQUAL
  | REGEX
  | STARTS_WITH
  | CONTAINS
  | IN
deriving DecidableEq

def lookupName : Lookup → String
  | .EQUAL => "eq"
  | .REGEX => "regex"
  | .STARTS_WITH => "startswith"
  | .CONTAINS => "contains"
  | .IN => "in"

def lookupOfName (s : String) : Option Lookup :=
  if s = "eq" then some .EQUAL
  else if s = "regex" then some .REGEX
  else if s = "startswith" then some .STARTS_WITH
  else if s = "contains" then some .CONTAINS
  else if s = "in" then some .IN
  else none

/-- patterns.py Match: a boolean outcome plus the named-value context. -/
structure Match where
  matched : Bool
  context : List (String × String)
deriving DecidableEq

/-- The leaf-pattern vocabulary the claims exercise (each value of
patterns.py PATTERNS except URL, Content and Data, see the header). -/
inductive Kind
  | method
  | headers
  | cookies
  | scheme
  | host
  | port
  | path
  | params
  | json
deriving DecidableEq

def kindKey : Kind → String
  | .method => "method"
  | .headers => "headers"
  | .cookies => "cookies"
  | .scheme => "scheme"
  | .host => "host"
  | .port => "port"
  | .path => "path"
  | .params => "params"
  | .json => "json"

/-! ## JSON values (the decoded request body consumed by the JSON pattern)

The value type is declared mutually with its own list types so that every
function on it is compiled by structural recursion and reduces by kernel
computation. -/

mutual
inductive JsonVal
  | null
  | bool (b : Bool)
  | num (n : Int)
  | str (s : String)
  | arr (xs : JsonArr)
  | obj (fs : JsonFields)
inductive JsonArr
  | nil
  | cons (hd : JsonVal) (tl : JsonArr)
inductive JsonFields
  | nil
  | cons (k : String) (v : JsonVal) (tl : JsonFields)
end

def JsonArr.get? : JsonArr → Nat → Option JsonVal
  | .nil, _ => none
  | .cons x _, 0 => some x
  | .cons _ t, n + 1 => JsonArr.get? t n

def JsonFields.lookup : JsonFields → String → Option JsonVal
  | .nil, _ => none
  | .cons k v t, key => if k = key then some v else JsonFields.lookup t key

/-- Lexicographic-by-pair order used to sort (key, value) string pairs, the
order Python sorted gives tuples of strings. -/
def pairLtB (a b : String × String) : Bool :=
  decide (a.1 < b.1) || (decide (a.1 = b.1) && decide (a.2 < b.2))

def insertPair (x : String × String) : List (String × String) → List (String × String)
  | [] => [x]
  | y :: t => if pairLtB y x then y :: insertPair x t else x :: y :: t

/-- Stable insertion sort of string pairs (Python sorted on tuples). -/
def sortPairs : List (String × String) → List (String × String)
  | [] => []
  | x :: t => insertPair x (sortPairs t)

/-- JSON string escaping for the canonical dump (quote and backslash; the
claims exercise plain text only). -/
def escapeChars : List Char → List Char
  | [] => []
  | c :: t =>
    if c = '"' then '\\' :: '"' :: escapeChars t
    else if c = '\\' then '\\' :: '\\' :: escapeChars t
    else c :: escapeChars t

def renderField (kv : String × String) : List Char :=
  '"' :: escapeChars kv.1.data ++ [ '"', ':', ' '] ++ kv.2.data

-- jsonlib.dumps with sort_keys=True and the default item separators: the
-- canonical serialization JSON.hash applies to both the configured value
-- and the navigated request value.
mutual
def dumps : JsonVal → String
  | .null => "null"
  | .bool b => if b then "true" else "false"
  | .num n => toString n
  | .str s => ofChars ( '"' :: escapeChars s.data ++ [ '"'])
  | .arr xs => ofChars ( '[' :: joinChars [ ',', ' '] (dumpsArr xs) ++ [ ']'])
  | .obj fs =>
    ofChars ( '\x7b' :: joinChars [ ',', ' ']
      ((sortPairs (dumpsFields fs)).map renderField) ++ [ '\x7d'])
def dumpsArr : JsonArr → List (List Char)
  | .nil => []
  | .cons x xs => (dumps x).data :: dumpsArr xs
def dumpsFields : JsonFields → List (String × String)
  | .nil => []
  | .cons k v t => (k, dumps v) :: dumpsFields t
end

/-- Python truthiness of a decoded JSON value (the builder skips falsy
keyword values). -/
def jsonTruthy : JsonVal → Bool
  | .null => false
  | .bool b => b
  | .num n => decide (n ≠ 0)
  | .str s => decide (s ≠ "")
  | .arr .nil => false
  | .arr _ => true
  | .obj .nil => false
  | .obj _ => true

/-! ## Pattern and request values -/

/-- The normalized value a leaf pattern stores (Pattern.value after clean):
a string, an optional port number, a sequence for IN lookups, an ordered
multi-item list (httpx.Headers / httpx.QueryParams), a cookie set, or a
compiled regular expression modelled as its search function. -/
inductive PatVal
  | str (s : String)
  | natOpt (n : Option Nat)
  | strList (l : List String)
  | natList (l : List Nat)
  | pairs (l : List (String × String))
  | pairSet (s : Finset (String × String))
  | regexFn (f : String → Option (List (String × String)))

/-- The value a leaf pattern extracts from a request (Pattern.parse). -/
inductive RVal
  | str (s : String)
  | natOpt (n : Option Nat)
  | pairs (l : List (String × String))
  | pairSet (s : Finset (String × String))
deriving DecidableEq

/-- The Python exceptions match evaluation can raise: KeyError and
IndexError from JSON path navigation, TypeError from indexing a
non-container, and a decode error for a body that is not valid JSON. -/
inductive MErr
  | keyError
  | indexError
  | typeError
  | jsonDecodeError
deriving DecidableEq

/-- Construction-time errors of the builder M: an unknown attribute name
(KeyError), an invalid lookup suffix (ValueError from the Lookup enum), an
unsupported lookup for the kind (NotImplementedError from
Pattern.__init__), and a marker for value shapes delegated to httpx
machinery outside this embedding (compiling a regex from a string, the
URL / Content / Data leaf kinds). -/
inductive BuildErr
  | keyErrorPattern
  | valueErrorLookup
  | unsupportedLookup
  | modelLimit
deriving DecidableEq

/-- The request representation consumed by the core: the structural
attributes of an httpx.Request, with the query already split into
multi-items and the body already JSON-decoded (none when the body is not
valid JSON), exactly the observations patterns.py extracts through httpx. -/
structure Request where
  method : String
  scheme : String
  host : String
  port : Option Nat
  path : String
  query : List (String × String)
  headers : List (String × String)
  jsonBody : Option JsonVal

/-- get_scheme_port: default port of a scheme. -/
def schemePort (scheme : String) : Option Nat :=
  if scheme = "http" then some 80
  else if scheme = "https" then some 443
  else none

/-- Port.parse: the explicit port if any (a zero port is falsy in Python),
else the default port the scheme implies. -/
def portParse (r : Request) : Option Nat :=
  match r.port with
  | some p => if p = 0 then schemePort r.scheme else some p
  | none => schemePort r.scheme

/-- httpx.Headers.get: case-insensitive lookup, joining repeated header
values with a comma (none when the header is absent). -/
def headersGet (hs : List (String × String)) (name : String) : Option String :=
  match hs.filterMap (fun kv => if lowerS kv.1 = lowerS name then some kv.2 else none) with
  | [] => none
  | vs => some ⟨joinChars [ ',', ' '] (vs.map String.data)⟩

def trimSpaces (cs : List Char) : List Char :=
  ((cs.dropWhile (fun c => c = ' ')).reverse.dropWhile (fun c => c = ' ')).reverse

def splitSemi (acc : List Char) : List Char → List (List Char)
  | ';' :: rest => acc.reverse :: splitSemi [] rest
  | c :: rest => splitSemi (c :: acc) rest
  | [] => [acc.reverse]

def splitEq (acc : List Char) : List Char → Option (List Char × List Char)
  | '=' :: rest => some (acc.reverse, rest)
  | c :: rest => splitEq (c :: acc) rest
  | [] => none

/-- One morsel of a Cookie header: name=value with surrounding spaces
trimmed; morsels without an equals sign are dropped (SimpleCookie.load on
well-formed unquoted cookie strings). -/
def cookiePairOf (cs : List Char) : Option (String × String) :=
  match splitEq [] (trimSpaces cs) with
  | some (k, v) => some (⟨k⟩, ⟨trimSpaces v⟩)
  | none => none

/-- Cookies.parse for a present, nonempty Cookie header: load the morsels
and collect the (name, value) set. -/
def parseCookieHeader (s : String) : Finset (String × String) :=
  ((splitSemi [] s.data).filterMap cookiePairOf).toFinset

/-- Cookies.parse: a missing or empty Cookie header parses to the empty
set, otherwise the header is loaded as cookies. -/
def cookiesParse (r : Request) : Finset (String × String) :=
  match headersGet r.headers "cookie" with
  | none => ∅
  | some s => if s = "" then ∅ else parseCookieHeader s

def splitAmp (acc : List Char) : List Char → List (List Char)
  | '&' :: rest => acc.reverse :: splitAmp [] rest
  | c :: rest => splitAmp (c :: acc) rest
  | [] => [acc.reverse]

/-- httpx.QueryParams of a raw query string: split on the ampersand, each
piece at its first equals sign (percent-decoding is not exercised by the
claims). Pieces without an equals sign become a pair with empty value, an
empty query gives no pairs. -/
def parseQuery (s : String) : List (String × String) :=
  if s = "" then []
  else (splitAmp [] s.data).map (fun piece =>
    match splitEq [] piece with
    | some (k, v) => (⟨k⟩, (⟨v⟩ : String))
    | none => (⟨piece⟩, ""))

/-! ## Leaf patterns: data, parsing, lookup comparisons -/

/-- The identity of a leaf pattern: kind, lookup, normalized value, and
the optional navigation path a PathPattern (JSON) carries. -/
structure LeafData where
  kind : Kind
  lookup : Lookup
  value : PatVal
  path : Option String

/-- A leaf of the pattern tree: its data plus the optional base pattern
attached by merge_patterns (patterns.py Pattern.base). The base is used
only through its own lookup comparison (_match), so its data suffices. -/
structure Leaf where
  data : LeafData
  base : Option LeafData

def natOfBits (bit : List Char) : Nat := natOfDigits bit

/-- One step of JSON path navigation (JSON.parse loop body): a digit bit
indexes a sequence (IndexError out of range) and raises KeyError on a
mapping; a name bit looks up a mapping key (KeyError when missing); any
other combination raises TypeError, as indexing does in Python. A digit
bit on a string value indexes its characters, as Python string indexing
does. -/
def navStep (v : JsonVal) (bit : List Char) : Except MErr JsonVal :=
  if isDigits bit then
    match v with
    | .arr xs =>
      match xs.get? (natOfBits bit) with
      | some x => .ok x
      | none => .error .indexError
    | .obj _ => .error .keyError
    | .str s =>
      match s.data.get? (natOfBits bit) with
      | some c => .ok (.str (ofChars [c]))
      | none => .error .indexError
    | _ => .error .typeError
  else
    match v with
    | .obj fs =>
      match fs.lookup ⟨bit⟩ with
      | some x => .ok x
      | none => .error .keyError
    | _ => .error .typeError

def navGo : List (List Char) → JsonVal → Except MErr JsonVal
  | [], v => .ok v
  | bit :: rest, v =>
    match navStep v bit with
    | .ok next => navGo rest next
    | .error e => .error e

/-- JSON.parse path navigation: an absent or empty (falsy) path leaves the
decoded body untouched, otherwise the path splits on double underscores
and each bit navigates one level. -/
def navigatePath (path : Option String) (j : JsonVal) : Except MErr JsonVal :=
  match path with
  | none => .ok j
  | some s => if s = "" then .ok j else navGo (splitUUGo [] s.data) j

/-- Pattern.parse per kind: extract the request value this leaf compares
(Method.parse, Scheme.parse, Host.parse, Port.parse, Path.parse,
Params.parse, Headers.parse, Cookies.parse, JSON.parse). Only the JSON
kind can fail: a body that is not valid JSON, or a path navigation error. -/
def parseLeaf (d : LeafData) (r : Request) : Except MErr RVal :=
  match d.kind with
  | .method => .ok (.str r.method)
  | .scheme => .ok (.str r.scheme)
  | .host => .ok (.str r.host)
  | .port => .ok (.natOpt (portParse r))
  | .path => .ok (.str r.path)
  | .params => .ok (.pairs r.query)
  | .headers => .ok (.pairs (r.headers.map (fun kv => (lowerS kv.1, kv.2))))
  | .cookies => .ok (.pairSet (cookiesParse r))
  | .json =>
    match r.jsonBody with
    | none => .error .jsonDecodeError
    | some j =>
      match navigatePath d.path j with
      | .ok v => .ok (.str (dumps v))
      | .error e => .error e

/-- Pattern._eq value comparison: equality of like-shaped values; httpx
Headers and QueryParams compare as sorted multi-item lists, cookie sets as
sets; unlike shapes compare unequal as in Python. -/
def eqVal : PatVal → RVal → Bool
  | .str a, .str b => decide (a = b)
  | .natOpt a, .natOpt b => decide (a = b)
  | .pairs a, .pairs b => decide (sortPairs a = sortPairs b)
  | .pairSet a, .pairSet b => decide (a = b)
  | _, _ => false

/-- MultiItemsMixin._contains: fail fast when the configured multi-item
list is longer than the request list, otherwise every configured pair must
be a member of the request list. -/
def multiContains (cfg req : List (String × String)) : Match :=
  if cfg.length > req.length then ⟨false, []⟩
  else if cfg.all (fun item => req.contains item) then ⟨true, []⟩
  else ⟨false, []⟩

/-- Pattern._match: dispatch the leaf lookup to its comparison (_eq,
_regex, _startswith, _contains, _in). CONTAINS is kind-specific:
multi-item containment for Headers and Params, nonempty set intersection
for Cookies. IN covers membership in a configured sequence, including
Python substring membership for a string-valued Path pattern.
Combinations that construction would have rejected compare false. -/
def lookupMatch (d : LeafData) (v : RVal) : Match :=
  match d.lookup with
  | .EQUAL => ⟨eqVal d.value v, []⟩
  | .REGEX =>
    match d.value, v with
    | .regexFn f, .str s =>
      match f s with
      | none => ⟨false, []⟩
      | some groups => ⟨true, groups⟩
    | _, _ => ⟨false, []⟩
  | .STARTS_WITH =>
    match d.value, v with
    | .str p, .str s => ⟨startsWithS s p, []⟩
    | _, _ => ⟨false, []⟩
  | .CONTAINS =>
    match d.kind, d.value, v with
    | .cookies, .pairSet a, .pairSet b => ⟨!decide (a ∩ b = ∅), []⟩
    | .headers, .pairs a, .pairs b => multiContains a b
    | .params, .pairs a, .pairs b => multiContains a b
    | _, _, _ => ⟨false, []⟩
  | .IN =>
    match d.value, v with
    | .strList l, .str s => ⟨l.contains s, []⟩
    | .str cfg, .str s => ⟨decide (List.IsInfix s.data cfg.data), []⟩
    | .natList l, .natOpt (some n) => ⟨l.contains n, []⟩
    | _, _ => ⟨false, []⟩

/-- urljoin onto the root as Path.clean and Path.strip_base use it: a
leading slash is guaranteed. -/
def ensureSlash (s : String) : String :=
  if startsWithS s "/" then s else ⟨ '/' :: s.data⟩

/-- Pattern.strip_base / Path.strip_base: the identity except for Path,
which drops as many characters as the base value has and re-roots the
remainder onto the root. -/
def stripBase (k : Kind) (b : LeafData) (v : RVal) : RVal :=
  match k, b.value, v with
  | .path, .str bs, .str s => .str (ensureSlash (strDrop s (strLen bs)))
  | _, _, _ => v

/-- Pattern.match for a leaf: parse the request, then, when a base is
attached, evaluate the base comparison on the parsed value — returning the
base result itself when it fails — and strip the base prefix before the
own comparison. -/
def leafMatchE (l : Leaf) (r : Request) : Except MErr Match :=
  match parseLeaf l.data r with
  | .error e => .error e
  | .ok v =>
    match l.base with
    | some b =>
      let bm := lookupMatch b v
      if bm.matched then .ok (lookupMatch l.data (stripBase l.data.kind b v))
      else .ok bm
    | none => .ok (lookupMatch l.data v)

/-! ## The pattern tree and its evaluation -/

/-- The pattern algebra: leaves and the _And, _Or, _Invert combinators. -/
inductive Pat
  | leaf (l : Leaf)
  | pand (a b : Pat)
  | por (a b : Pat)
  | pinv (p : Pat)

def ctxLookup : List (String × String) → String → Option String
  | [], _ => none
  | kv :: t, k => if kv.1 = k then some kv.2 else ctxLookup t k

def optOr : Option String → Option String → Option String
  | some v, _ => some v
  | none, b => b

/-- Python dict merge of two contexts, as in Match(True, **m1, **m2) uses
it: the left keys in order with right values overriding, then the keys
only the right map has, in order. -/
def dictMerge (d1 d2 : List (String × String)) : List (String × String) :=
  d1.map (fun kv => (kv.1, (ctxLookup d2 kv.1).getD kv.2))
  ++ d2.filter (fun kv => (ctxLookup d1 kv.1).isNone)

/-- Pattern.match over the tree: _And.match evaluates both operands and
merges contexts on success; _Or.match returns the first result when it
matched, else the second result; _Invert.match complements the child
boolean keeping its context. Exceptions propagate as in Python, aborting
the rest of the evaluation. -/
def matchE : Pat → Request → Except MErr Match
  | .leaf l, r => leafMatchE l r
  | .pand a b, r =>
    match matchE a r with
    | .error e => .error e
    | .ok m1 =>
      match matchE b r with
      | .error e => .error e
      | .ok m2 =>
        if m1.matched && m2.matched then
          .ok ⟨true, dictMerge m1.context m2.context⟩
        else .ok ⟨false, []⟩
  | .por a b, r =>
    match matchE a r with
    | .error e => .error e
    | .ok m1 => if m1.matched then .ok m1 else matchE b r
  | .pinv p, r =>
    match matchE p r with
    | .error e => .error e
    | .ok m => .ok ⟨!m.matched, m.context⟩

/-- Pattern.__iter__ / flattening: the leaves of the tree in depth-first
order (combinators yield from their children). -/
def flatten : Pat → List Leaf
  | .leaf l => [l]
  | .pand a b => flatten a ++ flatten b
  | .por a b => flatten a ++ flatten b
  | .pinv p => flatten p

/-! ## The builder M, URL decomposition and the base merge -/

/-- An httpx.URL as the builder observes it: scheme, host, optional port,
the raw path of the parsed reference (empty when the URL has none, while
the path property then reads as the root), and the raw query string. -/
structure URLParts where
  scheme : String
  host : String
  port : Option Nat
  rawPath : String
  query : String

/-- httpx URL.path: always at least the root. -/
def URLParts.path (u : URLParts) : String :=
  if u.rawPath = "" then "/" else u.rawPath

/-- parse_url_patterns on a structured URL: decompose into up to five base
candidates keyed by attribute name — scheme, host, an explicit
non-default nonzero port, a path (EQUAL when exact else STARTS_WITH,
cleaned by Path.clean), and query params (EQUAL when exact else CONTAINS).
Insertion order of the candidate map is the declaration order. -/
def parseUrlPatterns (u : URLParts) (exact : Bool) : List (String × LeafData) :=
  (if u.scheme = "" then [] else
    [("scheme", ⟨.scheme, .EQUAL, .str (lowerS u.scheme), none⟩)])
  ++ (if u.host = "" then [] else
    [("host", ⟨.host, .EQUAL, .str u.host, none⟩)])
  ++ (match u.port with
      | some p =>
        if p ≠ 0 ∧ some p ≠ schemePort u.scheme then
          [("port", ⟨.port, .EQUAL, .natOpt (some p), none⟩)]
        else []
      | none => [])
  ++ (if u.rawPath = "" then [] else
    [("path", ⟨.path, if exact then .EQUAL else .STARTS_WITH,
               .str (ensureSlash u.path), none⟩)])
  ++ (if u.query = "" then [] else
    [("params", ⟨.params, if exact then .EQUAL else .CONTAINS,
                 .pairs (parseQuery u.query), none⟩)])

/-- combine: AND-reduce a pattern list left to right; none when empty. -/
def combine : List Pat → Option Pat
  | [] => none
  | x :: xs => some (xs.foldl Pat.pand x)

/-- dict.pop for the insertion-ordered base-candidate map. -/
def popAssoc (l : List (String × LeafData)) (k : String) :
    Option LeafData × List (String × LeafData) :=
  match l with
  | [] => (none, [])
  | kv :: t =>
    if kv.1 = k then (some kv.2, t)
    else
      let r := popAssoc t k
      (r.1, kv :: r.2)

/-- The traversal of merge_patterns over the flattened leaves, rendered
functionally: every leaf pops the candidate its key names (whether or not
it is attached), and the candidate is attached as the leaf base unless the
leaf already has one or the candidate uses the EQUAL lookup. -/
def attachBases : Pat → List (String × LeafData) → Pat × List (String × LeafData)
  | .leaf l, bs =>
    match popAssoc bs (kindKey l.data.kind) with
    | (none, bs2) => (.leaf l, bs2)
    | (some b, bs2) =>
      if l.base.isSome ∨ b.lookup = Lookup.EQUAL then (.leaf l, bs2)
      else (.leaf ⟨l.data, some b⟩, bs2)
  | .pand a b, bs =>
    let ra := attachBases a bs
    let rb := attachBases b ra.2
    (.pand ra.1 rb.1, rb.2)
  | .por a b, bs =>
    let ra := attachBases a bs
    let rb := attachBases b ra.2
    (.por ra.1 rb.1, rb.2)
  | .pinv p, bs =>
    let rp := attachBases p bs
    (.pinv rp.1, rp.2)

/-- merge_patterns: no candidates leaves the pattern alone; an absent
pattern AND-reduces the candidates; a tree with a Host leaf is absolute
and discards every candidate unchanged; otherwise candidates attach along
the traversal and the leftovers AND-combine in front of the tree. -/
def mergePatterns (pat : Option Pat) (bases : List (String × LeafData)) : Option Pat :=
  if bases.isEmpty then pat
  else
    match pat with
    | some p =>
      if (flatten p).any (fun l => decide (l.data.kind = Kind.host)) then some p
      else
        let res := attachBases p bases
        if res.2.isEmpty then some res.1
        else
          match combine (res.2.map (fun kv => Pat.leaf ⟨kv.2, none⟩)) with
          | some bp => some (.pand bp res.1)
          | none => some res.1
    | none => combine (bases.map (fun kv => Pat.leaf ⟨kv.2, none⟩))

/-- A keyword value handed to the builder M. Values whose handling the
source delegates to external machinery (a string URL parsed by httpx, a
regex compiled from a string) are represented structurally (url) or
abstractly (re); the builder rejects shapes outside the embedding with
BuildErr.modelLimit. -/
inductive KwVal
  | s (v : String)
  | strs (v : List String)
  | n (v : Nat)
  | ns (v : List Nat)
  | ps (v : List (String × String))
  | jv (v : JsonVal)
  | url (v : URLParts)
  | re (f : String → Option (List (String × String)))

/-- Python truthiness of a keyword value (M skips falsy values). -/
def kwTruthy : KwVal → Bool
  | .s v => decide (v ≠ "")
  | .strs v => !v.isEmpty
  | .n v => decide (v ≠ 0)
  | .ns v => !v.isEmpty
  | .ps v => !v.isEmpty
  | .jv v => jsonTruthy v
  | .url _ => true
  | .re _ => true

/-- The supported lookups of each kind, first entry the default
(Pattern.lookups of each leaf class). -/
def kindLookups : Kind → List Lookup
  | .method => [.EQUAL, .IN]
  | .headers => [.CONTAINS, .EQUAL]
  | .cookies => [.CONTAINS, .EQUAL]
  | .scheme => [.EQUAL, .IN]
  | .host => [.EQUAL, .IN]
  | .port => [.EQUAL, .IN]
  | .path => [.EQUAL, .REGEX, .STARTS_WITH, .IN]
  | .params => [.CONTAINS, .EQUAL]
  | .json => [.EQUAL]

def defaultLookup (k : Kind) : Lookup :=
  match kindLookups k with
  | l :: _ => l
  | [] => .EQUAL

/-- The PATTERNS registry restricted to the embedded kinds; the remaining
registered keys (url, content, data) are recognized but unmodelled. -/
def kindOfKey (s : String) : Option Kind :=
  if s = "method" then some .method
  else if s = "headers" then some .headers
  else if s = "cookies" then some .cookies
  else if s = "scheme" then some .scheme
  else if s = "host" then some .host
  else if s = "port" then some .port
  else if s = "path" then some .path
  else if s = "params" then some .params
  else if s = "json" then some .json
  else none

def unmodelledKey (s : String) : Bool :=
  decide (s = "url") || decide (s = "content") || decide (s = "data")

/-- The clean step of each leaf class on a raw keyword value
(Method.clean upper-cases, Scheme.clean lower-cases, Path.clean re-roots
EQUAL / STARTS_WITH string values, Headers.clean lower-cases keys,
Cookies.clean builds the set, Params.clean parses, JSON.clean dumps
canonically). A string to be regex-compiled needs the external regex
engine and is rejected as a model limit. -/
def cleanValue (k : Kind) (lk : Lookup) (v : KwVal) : Except BuildErr PatVal :=
  match k, v with
  | .method, .s s => .ok (.str (upperS s))
  | .method, .strs l => .ok (.strList l)
  | .scheme, .s s => .ok (.str (lowerS s))
  | .scheme, .strs l => .ok (.strList l)
  | .host, .s s => .ok (.str s)
  | .host, .strs l => .ok (.strList l)
  | .port, .n p => .ok (.natOpt (some p))
  | .port, .ns l => .ok (.natList l)
  | .path, .s s =>
    match lk with
    | .EQUAL => .ok (.str (ensureSlash s))
    | .STARTS_WITH => .ok (.str (ensureSlash s))
    | .REGEX => .error .modelLimit
    | _ => .ok (.str s)
  | .path, .strs l => .ok (.strList l)
  | .path, .re f => .ok (.regexFn f)
  | .params, .s q => .ok (.pairs (parseQuery q))
  | .params, .ps l => .ok (.pairs l)
  | .headers, .ps l => .ok (.pairs (l.map (fun kv => (lowerS kv.1, kv.2))))
  | .cookies, .ps l => .ok (.pairSet l.toFinset)
  | .json, .jv j => .ok (.str (dumps j))
  | .json, .s s => .ok (.str (dumps (.str s)))
  | _, _ => .error .modelLimit

/-- Pattern.__init__ through the registry: validate the lookup against the
kind (NotImplementedError otherwise), default to the first supported
lookup, and clean the value. -/
def mkLeaf (k : Kind) (lkArg : Option Lookup) (jsonPath : Option String)
    (v : KwVal) : Except BuildErr LeafData :=
  match lkArg with
  | some lk =>
    if lk ∈ kindLookups k then
      match cleanValue k lk v with
      | .ok pv => .ok ⟨k, lk, pv, jsonPath⟩
      | .error e => .error e
    else .error .unsupportedLookup
  | none =>
    match cleanValue k (defaultLookup k) v with
    | .ok pv => .ok ⟨k, defaultLookup k, pv, jsonPath⟩
    | .error e => .error e

/-- The keyword loop of M: skip falsy values; a url keyword replaces the
extras with its decomposition (exact); any other keyword splits into
pattern key, optional path and lookup suffix. For the path-supporting JSON
kind an unrecognized trailing lookup token folds back into the path; for
every other kind it is a ValueError. Built leaves append to the pattern
list in keyword order. -/
def MGo : List (String × KwVal) → List Pat → List (String × LeafData) →
    Except BuildErr (List Pat × List (String × LeafData))
  | [], pats, extras => .ok (pats, extras)
  | (key, v) :: rest, pats, extras =>
    if kwTruthy v = false then MGo rest pats extras
    else if key = "url" then
      match v with
      | .url u => MGo rest pats (parseUrlPatterns u true)
      | _ => .error .modelLimit
    else
      let pk := partitionUU key
      let pl := rpartitionUU pk.2
      match kindOfKey pk.1 with
      | none =>
        if unmodelledKey pk.1 then .error .modelLimit else .error .keyErrorPattern
      | some kind =>
        let built :=
          if kind = Kind.json then
            match pl.2, lookupOfName pl.2 with
            | "", _ => mkLeaf kind none (if pl.1 = "" then none else some pl.1) v
            | _, some lk => mkLeaf kind (some lk) (if pl.1 = "" then none else some pl.1) v
            | _, none => mkLeaf kind none (some pk.2) v
          else
            match pl.2, lookupOfName pl.2 with
            | "", _ => mkLeaf kind none none v
            | _, some lk => mkLeaf kind (some lk) none v
            | _, none => .error .valueErrorLookup
        match built with
        | .ok d => MGo rest (pats ++ [.leaf ⟨d, none⟩]) extras
        | .error e => .error e

/-- The builder M: process the keywords, AND-combine the given and built
patterns left to right, and merge the url decomposition in when present. -/
def M (patterns : List Pat) (kwargs : List (String × KwVal)) :
    Except BuildErr (Option Pat) :=
  match MGo kwargs patterns [] with
  | .error e => .error e
  | .ok res =>
    if res.2.isEmpty then .ok (combine res.1)
    else .ok (mergePatterns (combine res.1) res.2)

/-! ## Pattern equality and hashing

Pattern.__eq__ compares hashes, so patterns are equal exactly when their
hash keys are (assuming the intended collision-free hashing).
MultiItemsMixin.__hash__ hashes (class, lookup, str(value)); for an httpx
Headers or QueryParams value the string form (dict or list repr,
urlencoding respectively) is determined by, and determines, the ordered
multi_items list, so that component is modelled by the ordered list
itself. Cookies.__hash__ hashes (class, lookup, tuple(sorted(set))); the
sorted tuple of a set determines, and is determined by, the set, so that
component is modelled by the Finset the clean step builds. -/

/-- Headers.__hash__ key (via MultiItemsMixin): the class marker, the
lookup, and the order-sensitive cleaned multi-item list. -/
def headersHashKey (lk : Lookup) (items : List (String × String)) :
    String × String × List (String × String) :=
  ("Headers", lookupName lk, items.map (fun kv => (lowerS kv.1, kv.2)))

/-- Params.__hash__ key (via MultiItemsMixin): the class marker, the
lookup, and the order-sensitive multi-item list. -/
def paramsHashKey (lk : Lookup) (items : List (String × String)) :
    String × String × List (String × String) :=
  ("Params", lookupName lk, items)

/-- Cookies.clean: a pair collection becomes a set. -/
def cookiesClean (l : List (String × String)) : Finset (String × String) :=
  l.toFinset

/-- Cookies.__hash__ key: the class marker, the lookup, and the cleaned
set (hashed as its sorted tuple, which represents the set faithfully). -/
def cookiesHashKey (lk : Lookup) (l : List (String × String)) :
    String × String × Finset (String × String) :=
  ("Cookies", lookupName lk, cookiesClean l)

/-! ## Instrumented evaluation: Match object identity

Match.__invert__ flips self.matches in place and returns self, so object
identity matters for claim C1. This semantics threads a heap of the Match
objects each Pattern.match call returns: a call on a leaf or on _And
allocates a fresh object (its index is its identity), _Or returns one of
the child objects, and _Invert returns the object of its child call after
mutating it in place. -/

def mget (h : List Match) (i : Nat) : Match := h.getD i ⟨false, []⟩

/-- In-place mutation of the Match object at an index: its boolean is
complemented, its context kept. -/
def flipAt : List Match → Nat → List Match
  | [], _ => []
  | m :: t, 0 => ⟨!m.matched, m.context⟩ :: t
  | m :: t, n + 1 => m :: flipAt t n

/-- Pattern.match with Match object identity: returns the final heap and
the index of the returned Match object. -/
def matchA : Pat → Request → List Match → Except MErr (List Match × Nat)
  | .leaf l, r, h =>
    match leafMatchE l r with
    | .error e => .error e
    | .ok m => .ok (h ++ [m], h.length)
  | .pand a b, r, h =>
    match matchA a r h with
    | .error e => .error e
    | .ok s1 =>
      match matchA b r s1.1 with
      | .error e => .error e
      | .ok s2 =>
        let m1 := mget s2.1 s1.2
        let m2 := mget s2.1 s2.2
        let m : Match :=
          if m1.matched && m2.matched then ⟨true, dictMerge m1.context m2.context⟩
          else ⟨false, []⟩
        .ok (s2.1 ++ [m], s2.1.length)
  | .por a b, r, h =>
    match matchA a r h with
    | .error e => .error e
    | .ok s1 => if (mget s1.1 s1.2).matched then .ok s1 else matchA b r s1.1
  | .pinv p, r, h =>
    match matchA p r h with
    | .error e => .error e
    | .ok s1 => .ok (flipAt s1.1 s1.2, s1.2)

/-! ## Helper lemmas -/

theorem ctxLookup_append (d1 d2 : List (String × String)) (k : String) :
    ctxLookup (d1 ++ d2) k = optOr (ctxLookup d1 k) (ctxLookup d2 k) := by
  induction d1 with
  | nil => simp [ctxLookup, optOr]
  | cons kv t ih =>
    by_cases h : kv.1 = k <;> simp [ctxLookup, h, ih, optOr]

theorem ctxLookup_mapMerge (d1 d2 : List (String × String)) (k : String) :
    ctxLookup (d1.map (fun kv => (kv.1, (ctxLookup d2 kv.1).getD kv.2))) k =
      (ctxLookup d1 k).map (fun v => (ctxLookup d2 k).getD v) := by
  induction d1 with
  | nil => simp [ctxLookup]
  | cons kv t ih =>
    by_cases h : kv.1 = k
    · subst h; simp [ctxLookup, ih]
    · simp [ctxLookup, h, ih]

theorem ctxLookup_filterNew (d1 d2 : List (String × String)) (k : String) :
    ctxLookup (d2.filter (fun kv => (ctxLookup d1 kv.1).isNone)) k =
      if (ctxLookup d1 k).isNone then ctxLookup d2 k else none := by
  induction d2 with
  | nil => simp [ctxLookup]
  | cons kv t ih =>
    by_cases hk : kv.1 = k
    · subst hk
      by_cases hd : (ctxLookup d1 kv.1).isNone
      · simp [List.filter, hd, ctxLookup, ih]
      · simp [List.filter, hd, ctxLookup, ih]
    · by_cases hd : (ctxLookup d1 kv.1).isNone
      · simp [List.filter, hd, ctxLookup, hk, ih]
      · simp [List.filter, hd, ctxLookup, hk, ih]

/-- The context-merge of _And resolves each key from the right operand
first, exactly the Python double-splat precedence. -/
theorem dictMerge_lookup (d1 d2 : List (String × String)) (k : String) :
    ctxLookup (dictMerge d1 d2) k = optOr (ctxLookup d2 k) (ctxLookup d1 k) := by
  unfold dictMerge
  rw [ctxLookup_append, ctxLookup_mapMerge, ctxLookup_filterNew]
  cases h1 : ctxLookup d1 k <;> cases h2 : ctxLookup d2 k <;> simp [optOr]

theorem multiContains_matched (cfg req : List (String × String)) :
    (multiContains cfg req).matched = true ↔
      (cfg.length ≤ req.length ∧ ∀ p ∈ cfg, p ∈ req) := by
  unfold multiContains
  by_cases h1 : cfg.length > req.length
  · simp only [h1, if_true]
    constructor
    · intro hm; cases hm
    · intro hc; omega
  · simp only [h1, if_false]
    by_cases h2 : cfg.all (fun item => req.contains item) = true
    · simp only [h2, if_true, true_iff]
      refine ⟨by omega, ?_⟩
      intro p hp
      have := (List.all_eq_true.mp h2) p hp
      simpa using this
    · simp only [h2, if_false]
      constructor
      · intro hm; cases hm
      · intro hc
        apply absurd ?_ h2
        apply List.all_eq_true.mpr
        intro p hp
        simpa using hc.2 p hp

theorem flipAt_length (h : List Match) (i : Nat) :
    (flipAt h i).length = h.length := by
  induction h generalizing i with
  | nil => rfl
  | cons m t ih =>
    cases i with
    | zero => rfl
    | succ n => simp [flipAt, ih]

theorem mget_append_offset (h k : List Match) (i : Nat) :
    mget (h ++ k) (h.length + i) = mget k i := by
  induction h with
  | nil => simp [mget]
  | cons m t ih => simpa [mget, List.getD, Nat.succ_add] using ih

theorem flipAt_append_offset (h k : List Match) (i : Nat) :
    flipAt (h ++ k) (h.length + i) = h ++ flipAt k i := by
  induction h with
  | nil => simp
  | cons m t ih =>
    simp only [List.cons_append, List.length_cons, Nat.succ_add, flipAt]
    rw [ih]

theorem mget_flipAt (h : List Match) (i : Nat) (hi : i < h.length) :
    mget (flipAt h i) i = ⟨!(mget h i).matched, (mget h i).context⟩ := by
  induction h generalizing i with
  | nil => cases hi
  | cons m t ih =>
    cases i with
    | zero => rfl
    | succ n =>
      have hn : n < t.length := by simpa using hi
      simpa [flipAt, mget, List.getD] using ih n hn

/-- Every successful match call returns the identity of an object that
lives in the final heap. -/
theorem matchA_idx_lt (p : Pat) (r : Request) (h : List Match)
    (s : List Match × Nat) (hs : matchA p r h = .ok s) : s.2 < s.1.length := by
  induction p generalizing h s with
  | leaf l =>
    unfold matchA at hs
    split at hs
    · cases hs
    · cases hs
      simp
  | pand a b iha ihb =>
    unfold matchA at hs
    split at hs
    · cases hs
    · split at hs
      · cases hs
      · simp only at hs
        cases hs
        simp
  | por a b iha ihb =>
    unfold matchA at hs
    split at hs
    · cases hs
    next s1 ha =>
      split at hs
      · injection hs with hv
        exact hv ▸ iha h s1 ha
      · exact ihb s1.1 s hs
  | pinv p ih =>
    unfold matchA at hs
    split at hs
    · cases hs
    next s1 hp =>
      cases hs
      have := ih h s1 hp
      simpa [flipAt_length] using this

/-- Evaluation is translation-invariant in the heap: running on a longer
starting heap appends the same allocations and shifts the returned object
identity, so the outcome of a pattern does not depend on what was
allocated before — patterns stay reusable across match calls. -/
theorem matchA_shift (p : Pat) (r : Request) (g h : List Match) :
    matchA p r (g ++ h) =
      (matchA p r h).map (fun s => (g ++ s.1, g.length + s.2)) := by
  induction p generalizing h with
  | leaf l =>
    cases hl : leafMatchE l r with
    | error e => simp [matchA, hl, Except.map]
    | ok m => simp [matchA, hl, Except.map, List.append_assoc]
  | pand a b iha ihb =>
    cases ha : matchA a r h with
    | error e => simp [matchA, iha, ha, Except.map]
    | ok s1 =>
      cases hb : matchA b r s1.1 with
      | error e => simp [matchA, iha, ihb, ha, hb, Except.map]
      | ok s2 =>
        simp [matchA, iha, ihb, ha, hb, Except.map, mget_append_offset,
          List.append_assoc]
  | por a b iha ihb =>
    cases ha : matchA a r h with
    | error e => simp [matchA, iha, ha, Except.map]
    | ok s1 =>
      by_cases hm : (mget s1.1 s1.2).matched
      · simp [matchA, iha, ha, Except.map, mget_append_offset, hm]
      · simp [matchA, iha, ihb, ha, Except.map, mget_append_offset, hm]
  | pinv p ih =>
    cases hp : matchA p r h with
    | error e => simp [matchA, ih, hp, Except.map]
    | ok s1 => simp [matchA, ih, hp, Except.map, flipAt_append_offset]

/-! ## Concrete patterns and requests used by the claims -/

def mkReq (m sch h pa : String) : Request := ⟨m, sch, h, none, pa, [], [], none⟩

/-- A request GET http://x.test/ with no headers and no body. -/
def reqGet : Request := mkReq "GET" "http" "x.test" "/"

/-- A request to https://x.test/ with no explicit port. -/
def rHttps : Request := mkReq "GET" "https" "x.test" "/"

/-- The leaf pattern Method("GET"). -/
def pGet : Pat := .leaf ⟨⟨.method, .EQUAL, .str "GET", none⟩, none⟩

/-- The leaf pattern Path("/", EQUAL). -/
def pRoot : Pat := .leaf ⟨⟨.path, .EQUAL, .str "/", none⟩, none⟩

def heapTrue : List Match := [⟨true, []⟩]

def c2url : URLParts := ⟨"https", "a.test", none, "/base/", ""⟩

def c2kwargs : List (String × KwVal) :=
  [("method", .s "POST"), ("url", .url c2url), ("path__startswith", .s "/sub")]

/-- The pattern M builds from method POST, the base url, and
path__startswith: the url path candidate (EQUAL) is consumed and
discarded by the merge, the scheme and host leftovers are AND-combined in
front, and no leaf carries a base. -/
def c2tree : Pat :=
  .pand
    (.pand (.leaf ⟨⟨.scheme, .EQUAL, .str "https", none⟩, none⟩)
           (.leaf ⟨⟨.host, .EQUAL, .str "a.test", none⟩, none⟩))
    (.pand (.leaf ⟨⟨.method, .EQUAL, .str "POST", none⟩, none⟩)
           (.leaf ⟨⟨.path, .STARTS_WITH, .str "/sub", none⟩, none⟩))

def c2r1 : Request := mkReq "POST" "https" "a.test" "/base/sub/thing"
def c2r2 : Request := mkReq "POST" "https" "a.test" "/other/sub"
def c2r3 : Request := mkReq "GET" "https" "a.test" "/base/sub/thing"
def c2r4 : Request := mkReq "POST" "https" "a.test" "/sub/thing"

/-- Evaluate a built pattern against a request (none when the build failed
or produced no pattern). -/
def runBuilt (b : Except BuildErr (Option Pat)) (r : Request) :
    Option (Except MErr Match) :=
  match b with
  | .ok (some p) => some (matchE p r)
  | _ => none

def c3cfg : List (String × String) := [("a", "1"), ("a", "1")]

/-- A request carrying headers a: 1 and b: 2. -/
def reqHdr : Request :=
  ⟨"GET", "http", "x.test", none, "/", [], [("a", "1"), ("b", "2")], none⟩

def c5base : LeafData := ⟨.path, .STARTS_WITH, .str "/api", none⟩
def c5own : LeafData := ⟨.path, .STARTS_WITH, .str "/v1", none⟩
def rC5 : Request := mkReq "GET" "https" "a.test" "/api/v1/x"

def hostLeafPat : Pat := .leaf ⟨⟨.host, .EQUAL, .str "a.test", none⟩, none⟩
def c7bases : List (String × LeafData) :=
  [("path", ⟨.path, .STARTS_WITH, .str "/api", none⟩)]

/-- The decoded body of the JSON literal with user a one-element list
holding an object with name Alice. -/
def body1 : JsonVal :=
  .obj (.cons "user" (.arr (.cons (.obj (.cons "name" (.str "Alice") .nil)) .nil)) .nil)

/-- The decoded body of the JSON literal with user an empty list. -/
def body2 : JsonVal := .obj (.cons "user" (.arr .nil) .nil)

def rJ1 : Request := ⟨"POST", "https", "a.test", none, "/", [], [], some body1⟩
def rJ2 : Request := ⟨"POST", "https", "a.test", none, "/", [], [], some body2⟩

/-- The pattern JSON(value Alice, path user__0__name). -/
def c9leafPat : Pat :=
  .leaf ⟨⟨.json, .EQUAL, .str (dumps (.str "Alice")), some "user__0__name"⟩, none⟩

/-! ## The claims -/

/-- C1, counterexample: the claim says NOT(p).match(r) is a Match object
distinct from the one p.match(r) produced and that inversion never
mutates in place. In the object-identity semantics, matching NOT(Method
GET) against a GET request returns the object at index 0 — the very
object the child match allocated (matching the child alone returns the
same index 0) — and that object now holds the complemented boolean: the
child Match was mutated in place and returned, not copied. -/
theorem c1_counterexample :
    matchA (Pat.pinv pGet) reqGet [] = .ok ([⟨false, []⟩], 0)
    ∧ matchA pGet reqGet [] = .ok ([⟨true, []⟩], 0) := ⟨rfl, rfl⟩

/-- C1, amended: Match.__invert__ mutates in place, so NOT(p).match(r)
returns the very Match object the child evaluation produced, with its
boolean complemented in place (no new allocation, context kept). The
child pattern itself is never mutated and remains safely reusable: a
fresh match of p on any heap reproduces the same boolean outcome. -/
theorem c1_amended (p : Pat) (r : Request) (h h1 : List Match) (i : Nat)
    (hp : matchA p r h = .ok (h1, i)) :
    matchA (Pat.pinv p) r h = .ok (flipAt h1 i, i)
    ∧ (flipAt h1 i).length = h1.length
    ∧ mget (flipAt h1 i) i = ⟨!(mget h1 i).matched, (mget h1 i).context⟩
    ∧ ∀ h2, (matchA p r h2).map (fun s => (mget s.1 s.2).matched) =
        .ok (mget h1 i).matched := by
  have hidx := matchA_idx_lt p r h (h1, i) hp
  refine ⟨by simp [matchA, hp], flipAt_length h1 i, mget_flipAt h1 i hidx, ?_⟩
  have h0 := matchA_shift p r h []
  rw [List.append_nil, hp] at h0
  cases hk : matchA p r [] with
  | error e =>
    rw [hk] at h0
    simp [Except.map] at h0
  | ok s0 =>
    rw [hk] at h0
    simp only [Except.map] at h0
    injection h0 with hv
    have hv1 : h1 = h ++ s0.1 := congrArg Prod.fst hv
    have hv2 : i = h.length + s0.2 := congrArg Prod.snd hv
    intro h2
    have hsh := matchA_shift p r h2 []
    rw [List.append_nil, hk] at hsh
    rw [hsh]
    simp only [Except.map]
    rw [hv1, hv2, mget_append_offset, mget_append_offset]

/-- C1, witness: the amended statement at the Method GET leaf against a
GET request on the empty heap. -/
theorem c1_witness :
    matchA (Pat.pinv pGet) reqGet [] = .ok (flipAt heapTrue 0, 0)
    ∧ (flipAt heapTrue 0).length = heapTrue.length
    ∧ mget (flipAt heapTrue 0) 0 =
        ⟨!(mget heapTrue 0).matched, (mget heapTrue 0).context⟩
    ∧ ∀ h2, (matchA pGet reqGet h2).map (fun s => (mget s.1 s.2).matched) =
        .ok (mget heapTrue 0).matched :=
  c1_amended pGet reqGet [] heapTrue 0 rfl

/-- C2, counterexample: the claim says M(method POST,
url https a.test /base/, path__startswith /sub) matches a POST to
https a.test /base/sub/thing. Evaluating the built pattern on exactly
that request yields a non-match: the exact (EQUAL) path candidate from
the url decomposition is discarded by merge_patterns, so the
path__startswith leaf compares against the full request path
/base/sub/thing, which does not start with /sub. -/
theorem c2_counterexample :
    runBuilt (M [] c2kwargs) c2r1 = some (.ok ⟨false, []⟩) := rfl

/-- C2, amended: the builder produces Scheme AND Host AND Method AND
Path(startswith /sub) with no base attached anywhere — the base url path
candidate carries the EQUAL lookup (M decomposes the url exactly) and
merge_patterns consumes and discards such a candidate instead of
attaching it, so no prefix stripping happens. Hence the pattern does NOT
match a POST to https a.test /base/sub/thing, does not match a POST to
https a.test /other/sub, does not match a GET to
https a.test /base/sub/thing, and DOES match a POST to
https a.test /sub/thing. -/
theorem c2_amended :
    M [] c2kwargs = .ok (some c2tree)
    ∧ matchE c2tree c2r1 = .ok ⟨false, []⟩
    ∧ matchE c2tree c2r2 = .ok ⟨false, []⟩
    ∧ matchE c2tree c2r3 = .ok ⟨false, []⟩
    ∧ matchE c2tree c2r4 = .ok ⟨true, []⟩ :=
  ⟨rfl, rfl, rfl, rfl, rfl⟩

/-- C3, counterexample: the claim says a configured pair appearing twice
only matches if the pair appears at least twice among the request pairs.
A Headers CONTAINS pattern configured with the pair (a, 1) twice matches
a request whose headers hold (a, 1) only once (next to (b, 2)): the loop
checks membership, not multiplicity, and the length guard passes. -/
theorem c3_counterexample :
    matchE (.leaf ⟨⟨.headers, .CONTAINS, .pairs c3cfg, none⟩, none⟩) reqHdr =
      .ok ⟨true, []⟩
    ∧ List.count ("a", "1") c3cfg = 2
    ∧ List.count ("a", "1") reqHdr.headers = 1 :=
  ⟨rfl, by decide, by decide⟩

/-- C3, amended: Headers and Params CONTAINS patterns evaluate the
multi-item containment on the configured and extracted pair lists; it
fails fast when the configured pair count exceeds the request pair count,
and otherwise succeeds exactly when every configured pair appears (at
least once) among the request pairs, order-independently. Duplicate
configured pairs are not required to appear with their multiplicity; only
the total length guard accounts for counts. The result carries no
context. -/
theorem c3_amended (cfg : List (String × String)) (r : Request) :
    matchE (.leaf ⟨⟨.headers, .CONTAINS, .pairs cfg, none⟩, none⟩) r =
      .ok (multiContains cfg (r.headers.map (fun kv => (lowerS kv.1, kv.2))))
    ∧ matchE (.leaf ⟨⟨.params, .CONTAINS, .pairs cfg, none⟩, none⟩) r =
      .ok (multiContains cfg r.query)
    ∧ ∀ req : List (String × String),
        ((multiContains cfg req).matched = true ↔
          (cfg.length ≤ req.length ∧ ∀ p ∈ cfg, p ∈ req))
        ∧ (multiContains cfg req).context = [] := by
  refine ⟨rfl, rfl, ?_⟩
  intro req
  refine ⟨multiContains_matched cfg req, ?_⟩
  unfold multiContains
  split_ifs <;> rfl

/-- C3, witness: the amended statement at the configured pair list of the
counterexample against that same request. -/
theorem c3_witness :
    matchE (.leaf ⟨⟨.headers, .CONTAINS, .pairs c3cfg, none⟩, none⟩) reqHdr =
      .ok (multiContains c3cfg (reqHdr.headers.map (fun kv => (lowerS kv.1, kv.2))))
    ∧ matchE (.leaf ⟨⟨.params, .CONTAINS, .pairs c3cfg, none⟩, none⟩) reqHdr =
      .ok (multiContains c3cfg reqHdr.query)
    ∧ ∀ req : List (String × String),
        ((multiContains c3cfg req).matched = true ↔
          (c3cfg.length ≤ req.length ∧ ∀ p ∈ c3cfg, p ∈ req))
        ∧ (multiContains c3cfg req).context = [] :=
  c3_amended c3cfg reqHdr

/-- C4, counterexample: the claim says Headers, Params and Cookies
patterns canonicalize pair order in their equality and hash. For Params
and Headers the hashed payload is the order-sensitive string form of the
multi-item list, so two patterns configured with the same pairs in
different orders (a permutation) get different hash keys and therefore
compare unequal. -/
theorem c4_counterexample :
    paramsHashKey .CONTAINS [("a", "1"), ("b", "2")] ≠
      paramsHashKey .CONTAINS [("b", "2"), ("a", "1")]
    ∧ List.Perm [("a", "1"), ("b", "2")] [("b", "2"), ("a", "1")]
    ∧ headersHashKey .CONTAINS [("a", "1"), ("b", "2")] ≠
      headersHashKey .CONTAINS [("b", "2"), ("a", "1")] :=
  ⟨by decide, by decide, by decide⟩

/-- C4, amended: only Cookies canonicalizes its configured collection —
clean builds a set and the hash covers its sorted tuple — so two Cookies
patterns of the same lookup whose pair collections are permutations of
one another have equal hash keys and compare equal. Headers and Params
hash the order-sensitive string form of their value, so reordering can
change their hash (see the counterexample). -/
theorem c4_amended (lk : Lookup) (l1 l2 : List (String × String))
    (h : List.Perm l1 l2) : cookiesHashKey lk l1 = cookiesHashKey lk l2 := by
  have hset : l1.toFinset = l2.toFinset := by
    apply Finset.ext
    intro x
    simp [List.mem_toFinset, h.mem_iff]
  simp [cookiesHashKey, cookiesClean, hset]

/-- C4, witness: two Cookies CONTAINS patterns whose pair lists are
reorderings of one another share their hash key. -/
theorem c4_witness :
    cookiesHashKey .CONTAINS [("a", "1"), ("b", "2")] =
      cookiesHashKey .CONTAINS [("b", "2"), ("a", "1")] :=
  c4_amended .CONTAINS [("a", "1"), ("b", "2")] [("b", "2"), ("a", "1")] (by decide)

/-- C5: for every leaf with a base attached, the base comparison runs
first on the parsed value; when it fails, match returns the base result
immediately — the right-hand sides below never consult the own lookup or
value, so the own comparison is never performed — and when it succeeds,
the own comparison runs on the base-stripped value, where the strip is
the identity for every kind except Path. -/
theorem c5_theorem (ld b : LeafData) (r : Request) (v : RVal)
    (hv : parseLeaf ld r = .ok v) :
    ((lookupMatch b v).matched = false →
      matchE (.leaf ⟨ld, some b⟩) r = .ok (lookupMatch b v))
    ∧ ((lookupMatch b v).matched = true →
      matchE (.leaf ⟨ld, some b⟩) r =
        .ok (lookupMatch ld (stripBase ld.kind b v)))
    ∧ (ld.kind ≠ Kind.path → stripBase ld.kind b v = v) := by
  refine ⟨?_, ?_, ?_⟩
  · intro hb
    simp [matchE, leafMatchE, hv, hb]
  · intro hb
    simp [matchE, leafMatchE, hv, hb]
  · intro hk
    cases hkind : ld.kind
    case path => exact absurd hkind hk
    all_goals rfl

/-- C5, witness: a Path startswith /v1 leaf with a Path startswith /api
base against a request whose path is /api/v1/x. -/
theorem c5_witness :
    ((lookupMatch c5base (.str "/api/v1/x")).matched = false →
      matchE (.leaf ⟨c5own, some c5base⟩) rC5 = .ok (lookupMatch c5base (.str "/api/v1/x")))
    ∧ ((lookupMatch c5base (.str "/api/v1/x")).matched = true →
      matchE (.leaf ⟨c5own, some c5base⟩) rC5 =
        .ok (lookupMatch c5own (stripBase c5own.kind c5base (.str "/api/v1/x"))))
    ∧ (c5own.kind ≠ Kind.path →
      stripBase c5own.kind c5base (.str "/api/v1/x") = .str "/api/v1/x") :=
  c5_theorem c5own c5base rC5 (.str "/api/v1/x") rfl

/-- C6: AND evaluates both operands; when both evaluations return, the
result succeeds exactly when both matched, and on success the context is
the dict-merge of the two contexts in which the right operand wins every
key collision. Both operands are evaluated even when the left one fails
to match: an exception the right operand raises still propagates after a
failed left match, which a short-circuiting AND would have swallowed. -/
theorem c6_theorem :
    (∀ (a b : Pat) (r : Request) (m1 m2 : Match),
      matchE a r = .ok m1 → matchE b r = .ok m2 →
      matchE (.pand a b) r =
        .ok (if m1.matched && m2.matched then
              (⟨true, dictMerge m1.context m2.context⟩ : Match)
            else ⟨false, []⟩)
      ∧ ∀ k, ctxLookup (dictMerge m1.context m2.context) k =
          optOr (ctxLookup m2.context k) (ctxLookup m1.context k))
    ∧ (∀ (a b : Pat) (r : Request) (m1 : Match) (e : MErr),
      matchE a r = .ok m1 → m1.matched = false → matchE b r = .error e →
      matchE (.pand a b) r = .error e) := by
  constructor
  · intro a b r m1 m2 h1 h2
    refine ⟨?_, fun k => dictMerge_lookup m1.context m2.context k⟩
    by_cases hm : m1.matched && m2.matched <;> simp [matchE, h1, h2, hm]
  · intro a b r m1 e h1 _hm h2
    simp [matchE, h1, h2]

/-- C6, witness: GET-and-root-path on a plain GET request merges two
successful matches; a failed Method GET next to an erroring JSON leaf
still raises, showing the right operand was evaluated. -/
theorem c6_witness :
    matchE (.pand pGet pRoot) reqGet = .ok ⟨true, dictMerge [] []⟩
    ∧ matchE (.pand pGet c9leafPat) rJ2 = .error .indexError := by
  constructor
  · have h := (c6_theorem.1 pGet pRoot reqGet ⟨true, []⟩ ⟨true, []⟩ rfl rfl).1
    simpa using h
  · exact c6_theorem.2 pGet c9leafPat rJ2 ⟨false, []⟩ .indexError rfl rfl rfl

/-- C7: when base candidates exist and the flattened combined pattern
holds a Host leaf, merge_patterns discards every candidate and returns
the tree unchanged — no base is attached and no leftover is
AND-combined. -/
theorem c7_theorem (p : Pat) (bases : List (String × LeafData))
    (hb : bases ≠ [])
    (hh : (flatten p).any (fun l => decide (l.data.kind = Kind.host)) = true) :
    mergePatterns (some p) bases = some p := by
  cases bases with
  | nil => exact absurd rfl hb
  | cons kv t => simp [mergePatterns, hh]

/-- C7, witness: a Host leaf tree with a path base candidate is returned
unchanged. -/
theorem c7_witness : mergePatterns (some hostLeafPat) c7bases = some hostLeafPat :=
  c7_theorem hostLeafPat c7bases (by simp [c7bases]) rfl

/-- C8: a request without an explicit port parses to the default port its
scheme implies — 80 for http, 443 for https, undefined otherwise — so
Port(443) matches a request to https x.test with no explicit port and
Port(80) does not match that same request. -/
theorem c8_theorem :
    (∀ r : Request, r.port = none → portParse r = schemePort r.scheme)
    ∧ schemePort "http" = some 80
    ∧ schemePort "https" = some 443
    ∧ (∀ s : String, s ≠ "http" → s ≠ "https" → schemePort s = none)
    ∧ matchE (.leaf ⟨⟨.port, .EQUAL, .natOpt (some 443), none⟩, none⟩) rHttps =
        .ok ⟨true, []⟩
    ∧ matchE (.leaf ⟨⟨.port, .EQUAL, .natOpt (some 80), none⟩, none⟩) rHttps =
        .ok ⟨false, []⟩ := by
  refine ⟨?_, rfl, rfl, ?_, rfl, rfl⟩
  · intro r hr
    simp [portParse, hr]
  · intro s h1 h2
    simp [schemePort, h1, h2]

/-- C8, witness: the inference clause at the portless https request. -/
theorem c8_witness : portParse rHttps = schemePort rHttps.scheme :=
  c8_theorem.1 rHttps rfl

/-- C9: when a JSON pattern carries a path and the request body is valid
JSON, a navigation error (a missing mapping key, an out-of-range sequence
index) makes match raise — the error propagates instead of a non-match.
Concretely, JSON(path user__0__name, value Alice) matches the body whose
user list holds an object with name Alice, and raises IndexError against
the body whose user list is empty. -/
theorem c9_theorem :
    (∀ (pstr val : String) (r : Request) (j : JsonVal) (e : MErr),
      r.jsonBody = some j →
      navigatePath (some pstr) j = .error e →
      matchE (.leaf ⟨⟨.json, .EQUAL, .str val, some pstr⟩, none⟩) r = .error e)
    ∧ matchE c9leafPat rJ1 = .ok ⟨true, []⟩
    ∧ matchE c9leafPat rJ2 = .error .indexError
    ∧ navigatePath (some "user__0__name") body2 = .error .indexError := by
  refine ⟨?_, rfl, rfl, rfl⟩
  intro pstr val r j e hj hn
  simp [matchE, leafMatchE, parseLeaf, hj, hn]

/-- C9, witness: the propagation clause at path user__0__name on the
empty user list body. -/
theorem c9_witness :
    matchE (.leaf ⟨⟨.json, .EQUAL, .str "x", some "user__0__name"⟩, none⟩) rJ2 =
      .error .indexError :=
  c9_theorem.1 "user__0__name" "x" rJ2 body2 .indexError rfl rfl

/-- C10: a request without a Cookie header parses to the empty cookie
set, so an EQUAL Cookies pattern with an empty configured set matches it;
and a CONTAINS Cookies pattern with an empty configured set matches no
request at all, since CONTAINS requires a nonempty intersection with the
parsed cookie set. -/
theorem c10_theorem :
    (∀ r : Request, headersGet r.headers "cookie" = none →
      cookiesParse r = ∅
      ∧ matchE (.leaf ⟨⟨.cookies, .EQUAL, .pairSet ∅, none⟩, none⟩) r =
          .ok ⟨true, []⟩)
    ∧ (∀ r : Request,
      matchE (.leaf ⟨⟨.cookies, .CONTAINS, .pairSet ∅, none⟩, none⟩) r =
        .ok ⟨false, []⟩) := by
  constructor
  · intro r hr
    have hp : cookiesParse r = ∅ := by simp [cookiesParse, hr]
    refine ⟨hp, ?_⟩
    simp [matchE, leafMatchE, parseLeaf, lookupMatch, hp, eqVal]
  · intro r
    simp [matchE, leafMatchE, parseLeaf, lookupMatch, Finset.empty_inter]

/-- C10, witness: both clauses at a headerless GET request. -/
theorem c10_witness :
    (cookiesParse reqGet = ∅
     ∧ matchE (.leaf ⟨⟨.cookies, .EQUAL, .pairSet ∅, none⟩, none⟩) reqGet =
         .ok ⟨true, []⟩)
    ∧ matchE (.leaf ⟨⟨.cookies, .CONTAINS, .pairSet ∅, none⟩, none⟩) reqGet =
        .ok ⟨false, []⟩ :=
  ⟨c10_theorem.1 reqGet rfl, c10_theorem.2 reqGet⟩

end Respx
